import Mathlib

/-!
Shallow embedding of the DineFlow front-end API client layer
(`src/app/api/services.js`): the core `request` function (URL
composition, header merging, token attachment, body handling, response
and error normalization), the token store utilities, and `auth.logout`.

JavaScript strings are modelled as lists of Unicode code points
(`JsStr := List Nat`); JSON-able JavaScript values (plus `FormData`) as
the inductive `JsValue`; the `localStorage` token slot as `Store`; and
the network as a `FetchOutcome` parameter supplied to `request`.
-/

namespace DineFlow

/-- JavaScript strings, as lists of Unicode code points. -/
abbrev JsStr := List Nat

/-- Embed a Lean string literal as a `JsStr`. -/
def S (s : String) : JsStr := s.data.map Char.toNat

/-- JavaScript values that can appear as request bodies or parsed JSON
response payloads, plus `FormData` (a list of name/value parts). -/
inductive JsValue where
  | jnull : JsValue
  | jbool : Bool → JsValue
  | jnum : Int → JsValue
  | jstr : JsStr → JsValue
  | jarr : List JsValue → JsValue
  | jobj : List (JsStr × JsValue) → JsValue
  | formData : List (JsStr × JsStr) → JsValue

/-- JavaScript truthiness of a `JsValue` (as tested by `if (body)` and
`if (m)`-style conditions in the source). -/
def truthy : JsValue → Bool
  | .jnull => false
  | .jbool b => b
  | .jnum n => n != 0
  | .jstr s => !s.isEmpty
  | .jarr _ => true
  | .jobj _ => true
  | .formData _ => true

/-- Truthiness of `localStorage.getItem` results (`null` and the empty
string are falsy). -/
def tokenTruthy : Option JsStr → Bool
  | none => false
  | some t => !t.isEmpty

/-- The `body instanceof FormData` test. -/
def isFormData : JsValue → Bool
  | .formData _ => true
  | _ => false

/-- Decimal rendering of an integer, as `String(n)` / `JSON.stringify(n)`. -/
def intStr (n : Int) : JsStr := S (toString n)

/-- One hex digit (uppercase), for `\uXXXX` escapes and percent-encoding. -/
def hexUpper (n : Nat) : Nat := if n < 10 then 48 + n else 55 + n

/-- JSON string escaping of one code point, as in `JSON.stringify`. -/
def jsonEscapeChar (c : Nat) : JsStr :=
  if c = 34 then [92, 34]
  else if c = 92 then [92, 92]
  else if c = 8 then [92, 98]
  else if c = 12 then [92, 102]
  else if c = 10 then [92, 110]
  else if c = 13 then [92, 114]
  else if c = 9 then [92, 116]
  else if c < 32 then [92, 117, 48, 48, hexUpper (c / 16), hexUpper (c % 16)]
  else [c]

/-- JSON string quoting, as in `JSON.stringify` applied to a string. -/
def jsonQuote (s : JsStr) : JsStr := [34] ++ (s.map jsonEscapeChar).flatten ++ [34]

mutual

/-- Model of `JSON.stringify` on the embedded values.  (`FormData` is not
serialized on any path the source takes; as a plain object with no own
enumerable properties it would stringify to an empty JSON object.) -/
def stringify : JsValue → JsStr
  | .jnull => S "null"
  | .jbool b => if b then S "true" else S "false"
  | .jnum n => intStr n
  | .jstr s => jsonQuote s
  | .jarr es => [91] ++ stringifyElems es ++ [93]
  | .jobj fs => [123] ++ stringifyFields fs ++ [125]
  | .formData _ => [123, 125]

/-- Comma-separated serialization of JSON array elements. -/
def stringifyElems : List JsValue → JsStr
  | [] => []
  | [v] => stringify v
  | v :: rest => stringify v ++ [44] ++ stringifyElems rest

/-- Comma-separated serialization of JSON object fields. -/
def stringifyFields : List (JsStr × JsValue) → JsStr
  | [] => []
  | [(k, v)] => jsonQuote k ++ [58] ++ stringify v
  | (k, v) :: rest => jsonQuote k ++ [58] ++ stringify v ++ [44] ++ stringifyFields rest

end

mutual

/-- JavaScript `String(v)` coercion, as applied by the `Error`
constructor to the value passed as its message. -/
def jsToString : JsValue → JsStr
  | .jnull => S "null"
  | .jbool b => if b then S "true" else S "false"
  | .jnum n => intStr n
  | .jstr s => s
  | .jarr es => joinComma es
  | .jobj _ => S "[object Object]"
  | .formData _ => S "[object FormData]"

/-- `Array.prototype.join(",")` with `null` elements rendered empty,
as used by `String` coercion of arrays. -/
def joinComma : List JsValue → JsStr
  | [] => []
  | [JsValue.jnull] => []
  | [v] => jsToString v
  | JsValue.jnull :: rest => [44] ++ joinComma rest
  | v :: rest => jsToString v ++ [44] ++ joinComma rest

end

/-- Property read `v.message`-style on a parsed JSON value: only objects
have own fields; on anything else the access yields `undefined`. -/
def getField (k : JsStr) : JsValue → Option JsValue
  | .jobj fields => fieldLookup k fields
  | _ => none
where
  /-- First-match field lookup in a JSON object. -/
  fieldLookup (k : JsStr) : List (JsStr × JsValue) → Option JsValue
    | [] => none
    | (k', v) :: rest => if k' = k then some v else fieldLookup k rest

/-- Optional chaining `responseData?.message`: `null`/`undefined`
receivers yield `undefined`. -/
def optMessage : Option JsValue → Option JsValue
  | none => none
  | some .jnull => none
  | some v => getField (S "message") v

/-! JavaScript plain objects used as header maps: association lists in
insertion order, mutated by property assignment / `delete`. -/

/-- Property assignment `obj[k] = v`: updates an existing key in place
(keeping its position), otherwise appends the new key. -/
def objSet (k v : JsStr) : List (JsStr × JsStr) → List (JsStr × JsStr)
  | [] => [(k, v)]
  | (k', v') :: rest => if k' = k then (k, v) :: rest else (k', v') :: objSet k v rest

/-- Property read `obj[k]`, `undefined` when absent. -/
def objGet (k : JsStr) : List (JsStr × JsStr) → Option JsStr
  | [] => none
  | (k', v) :: rest => if k' = k then some v else objGet k rest

/-- Property removal `delete obj[k]`. -/
def objDelete (k : JsStr) : List (JsStr × JsStr) → List (JsStr × JsStr)
  | [] => []
  | (k', v) :: rest => if k' = k then objDelete k rest else (k', v) :: objDelete k rest

/-- The spread merge `\x7b "Content-Type": "application/json", ...headers \x7d`
from the source's `requestOptions`. -/
def mergeHeaders (headers : List (JsStr × JsStr)) : List (JsStr × JsStr) :=
  headers.foldl (fun acc kv => objSet kv.1 kv.2 acc)
    [(S "Content-Type", S "application/json")]

/-- Last-occurrence lookup in the caller's header list: the value a JS
object literal built from that list would hold for the key. -/
def lastGet (k : JsStr) : List (JsStr × JsStr) → Option JsStr
  | [] => none
  | (k', v) :: rest =>
    match lastGet k rest with
    | some w => some w
    | none => if k' = k then some v else none

/-! URL query-string encoding, modelling `new URLSearchParams(params).toString()`
(the application/x-www-form-urlencoded serializer): per code point, the
unreserved bytes `A-Z a-z 0-9 * - . _` pass through, space becomes `+`,
and every other UTF-8 byte is percent-encoded. -/

/-- Bytes left unescaped by the urlencoded serializer. -/
def unreservedByte (b : Nat) : Bool :=
  (48 ≤ b && b ≤ 57) || (65 ≤ b && b ≤ 90) || (97 ≤ b && b ≤ 122) ||
    b = 42 || b = 45 || b = 46 || b = 95

/-- Encoding of a single UTF-8 byte in a query component. -/
def encodeByte (b : Nat) : List Nat :=
  if unreservedByte b then [b]
  else if b = 32 then [43]
  else [37, hexUpper (b / 16), hexUpper (b % 16)]

/-- UTF-8 encoding of one Unicode scalar value. -/
def utf8Char (c : Nat) : List Nat :=
  if c < 128 then [c]
  else if c < 2048 then [192 + c / 64, 128 + c % 64]
  else if c < 65536 then [224 + c / 4096, 128 + c / 64 % 64, 128 + c % 64]
  else [240 + c / 262144, 128 + c / 4096 % 64, 128 + c / 64 % 64, 128 + c % 64]

/-- UTF-8 encoding of a string. -/
def utf8Str (s : JsStr) : List Nat := (s.map utf8Char).flatten

/-- Percent-encoding of a query component (applied to its UTF-8 bytes). -/
def urlencode (s : JsStr) : JsStr := ((utf8Str s).map encodeByte).flatten

/-- One `key=value` unit of the serialized query string. -/
def encodePair (kv : JsStr × JsStr) : JsStr := urlencode kv.1 ++ [61] ++ urlencode kv.2

/-- The serialized query string: pairs joined by `&`, in insertion order. -/
def encodeQuery : List (JsStr × JsStr) → JsStr
  | [] => []
  | [kv] => encodePair kv
  | kv :: rest => encodePair kv ++ [38] ++ encodeQuery rest

/-! Decoding, for the round-trip property: standard query-string parsing
(`split on &`, split each part at the first `=`, `+` to space, `%XX` to a
byte, then UTF-8 decode). -/

/-- Value of one hex digit code point. -/
def fromHex (d : Nat) : Nat :=
  if 48 ≤ d ∧ d ≤ 57 then d - 48
  else if 65 ≤ d ∧ d ≤ 70 then d - 55
  else if 97 ≤ d ∧ d ≤ 102 then d - 87
  else 0

mutual

/-- Percent-decoding of a query component to its byte sequence. -/
def percentDecode : List Nat → List Nat
  | [] => []
  | b :: rest =>
    if b = 43 then 32 :: percentDecode rest
    else if b = 37 then percentEscape rest
    else b :: percentDecode rest

/-- The two hex digits following a `%` (malformed escapes dropped). -/
def percentEscape : List Nat → List Nat
  | d1 :: d2 :: rest => (16 * fromHex d1 + fromHex d2) :: percentDecode rest
  | _ => []

end

mutual

/-- UTF-8 decoding of a byte sequence back to scalar values. -/
def utf8Decode : List Nat → List Nat
  | [] => []
  | b :: rest =>
    if b < 128 then b :: utf8Decode rest
    else if b < 224 then utf8Tail1 b rest
    else if b < 240 then utf8Tail2 b rest
    else utf8Tail3 b rest

/-- Continuation byte of a 2-byte UTF-8 sequence (truncated input
decodes to the replacement character). -/
def utf8Tail1 (b : Nat) : List Nat → List Nat
  | b1 :: rest => ((b - 192) * 64 + (b1 - 128)) :: utf8Decode rest
  | [] => [65533]

/-- Continuation bytes of a 3-byte UTF-8 sequence. -/
def utf8Tail2 (b : Nat) : List Nat → List Nat
  | b1 :: b2 :: rest =>
    ((b - 224) * 4096 + (b1 - 128) * 64 + (b2 - 128)) :: utf8Decode rest
  | _ => [65533]

/-- Continuation bytes of a 4-byte UTF-8 sequence. -/
def utf8Tail3 (b : Nat) : List Nat → List Nat
  | b1 :: b2 :: b3 :: rest =>
    ((b - 240) * 262144 + (b1 - 128) * 4096 + (b2 - 128) * 64 + (b3 - 128))
      :: utf8Decode rest
  | _ => [65533]

end

/-- Full decoding of one query component. -/
def urldecode (s : JsStr) : JsStr := utf8Decode (percentDecode s)

/-- Split a byte list at every occurrence of a separator. -/
def splitSep (sep : Nat) : List Nat → List (List Nat)
  | [] => [[]]
  | b :: rest =>
    if b = sep then [] :: splitSep sep rest
    else
      match splitSep sep rest with
      | [] => [[b]]
      | g :: gs => (b :: g) :: gs

/-- Split one `key=value` unit at its first `=` (no `=` means empty value). -/
def splitEq : List Nat → List Nat × List Nat
  | [] => ([], [])
  | b :: rest =>
    if b = 61 then ([], rest)
    else
      let kv := splitEq rest
      (b :: kv.1, kv.2)

/-- Parse a query string back into decoded key/value pairs. -/
def decodeQuery (q : JsStr) : List (JsStr × JsStr) :=
  (splitSep 38 q).map fun part =>
    (urldecode (splitEq part).1, urldecode (splitEq part).2)

/-- A Unicode scalar value (what each element of a well-formed JS string
converts to): in range and not a surrogate. -/
def validScalar (c : Nat) : Bool := c < 1114112 && !(55296 ≤ c && c < 57344)

/-- All code points of a string are scalar values. -/
def validStr (s : JsStr) : Bool := s.all validScalar

/-! The API client itself. -/

/-- `API_BASE`: the configured base URL — the `NEXT_PUBLIC_API_URL`
environment value with `/api` appended when that value is truthy, else
the fixed local default. -/
def API_BASE (envUrl : Option JsStr) : JsStr :=
  if tokenTruthy envUrl then envUrl.getD [] ++ S "/api"
  else S "http://127.0.0.1:5000/api"

/-- The client-local `localStorage`, holding at most the `"token"` entry. -/
structure Store where
  token : Option JsStr

/-- `getAuthToken`: read the persisted token (`null` when absent). -/
def getAuthToken (s : Store) : Option JsStr := s.token

/-- `setAuthToken`: persist a token value. -/
def setAuthToken (t : JsStr) (_s : Store) : Store := ⟨some t⟩

/-- `clearAuthToken`: remove the persisted token. -/
def clearAuthToken (_s : Store) : Store := ⟨none⟩

/-- The body finally attached to the outgoing request: either the JSON
serialization of a structured value, or a `FormData` object passed
through unmodified. -/
inductive SentBody where
  | jsonText : JsStr → SentBody
  | formData : List (JsStr × JsStr) → SentBody

/-- The fully assembled outgoing request (`url` and `requestOptions`)
handed to `fetch`. -/
structure BuiltRequest where
  url : JsStr
  method : JsStr
  headers : List (JsStr × JsStr)
  sentBody : Option SentBody

/-- Steps 1–4 of `request`: compose the URL (appending `?` plus the
serialized params whenever `params` is truthy), merge the default
`Content-Type` under the caller's headers, attach `Authorization` when
the stored token is truthy, then attach the body — `FormData` unmodified
with `Content-Type` deleted, any other truthy body JSON-serialized, a
falsy body not at all. -/
def buildRequest (apiBase : JsStr) (token : Option JsStr) (path : JsStr)
    (method : JsStr) (body : Option JsValue) (params : Option (List (JsStr × JsStr)))
    (headers : List (JsStr × JsStr)) : BuiltRequest :=
  let url := apiBase ++ path ++
    (match params with
     | none => []
     | some ps => [63] ++ encodeQuery ps)
  let hs0 := mergeHeaders headers
  let hs1 :=
    if tokenTruthy token then
      objSet (S "Authorization") (S "Bearer " ++ token.getD []) hs0
    else hs0
  match body with
  | some b =>
    if truthy b then
      match b with
      | .formData parts =>
        ⟨url, method, objDelete (S "Content-Type") hs1, some (.formData parts)⟩
      | _ => ⟨url, method, hs1, some (.jsonText (stringify b))⟩
    else ⟨url, method, hs1, none⟩
  | none => ⟨url, method, hs1, none⟩

/-- The structured error (`class ApiError extends Error`): message,
HTTP status, parsed payload. -/
structure ApiError where
  message : JsStr
  status : Nat
  data : Option JsValue

/-- A value raised inside `request`'s `try` block: either the structured
`ApiError` (name `"ApiError"`), or any other failure (network error,
thrown exception) carrying its own message. -/
inductive JsError where
  | apiError : ApiError → JsError
  | otherError : JsStr → JsError

/-- What the network did for the issued request: an HTTP response
(status, status text, and the result of `response.json().catch(() => null)`
— `none` when the body was empty or not JSON), or a rejection of `fetch`
itself. -/
inductive FetchOutcome where
  | response : Nat → JsStr → Option JsValue → FetchOutcome
  | networkError : JsStr → FetchOutcome

/-- `Response.ok`: status in the 200–299 range. -/
def respOk (status : Nat) : Bool := 200 ≤ status && status ≤ 299

/-- Steps 5–7 of `request` (the `try` block after `fetch`): parse
failures already yield `none`; a not-ok status raises an `ApiError` with
message `responseData?.message || response.statusText` (the `Error`
constructor coercing the value to a string), the HTTP status, and the
parsed payload; an ok status returns the parsed payload. -/
def tryBody : FetchOutcome → Except JsError (Option JsValue)
  | .networkError msg => .error (.otherError msg)
  | .response status statusText jsonBody =>
    if respOk status then .ok jsonBody
    else
      .error (.apiError
        ⟨(match optMessage jsonBody with
          | some m => if truthy m then jsToString m else statusText
          | none => statusText),
         status, jsonBody⟩)

/-- The `catch` block of `request`: re-raise a raised `ApiError`
unchanged; wrap anything else as
`new ApiError(error.message || "Network request failed", 0, null)`. -/
def catchHandler : JsError → ApiError
  | .apiError e => e
  | .otherError msg =>
    ⟨if msg.isEmpty then S "Network request failed" else msg, 0, none⟩

/-- The core `request` function: assembles the outgoing request from its
arguments and the stored token, and — given what the network did —
produces either the parsed payload or the structured `ApiError`. -/
def request (envUrl : Option JsStr) (store : Store) (path : JsStr)
    (method : JsStr) (body : Option JsValue) (params : Option (List (JsStr × JsStr)))
    (headers : List (JsStr × JsStr)) (outcome : FetchOutcome) :
    BuiltRequest × Except ApiError (Option JsValue) :=
  (buildRequest (API_BASE envUrl) (getAuthToken store) path method body params headers,
   match tryBody outcome with
   | .ok v => .ok v
   | .error e => .error (catchHandler e))

/-- `auth.logout`: clear the persisted token, then issue
`request("/auth/logout")` (a GET with no body, params or extra headers). -/
def logout (envUrl : Option JsStr) (s : Store) (outcome : FetchOutcome) :
    Store × Except ApiError (Option JsValue) :=
  let s' := clearAuthToken s
  (s', (request envUrl s' (S "/auth/logout") (S "GET") none none [] outcome).2)

/-! Round-trip lemmas for the query-string encoding. -/

theorem fromHex_hexUpper (n : Nat) (h : n < 16) : fromHex (hexUpper n) = n := by
  simp only [fromHex, hexUpper]
  split_ifs <;> omega

theorem percentDecode_nil : percentDecode [] = [] := by rw [percentDecode]

theorem percentDecode_other (b : Nat) (rest : List Nat) (h43 : b ≠ 43) (h37 : b ≠ 37) :
    percentDecode (b :: rest) = b :: percentDecode rest := by
  rw [percentDecode]
  simp [h43, h37]

theorem percentDecode_plus (rest : List Nat) :
    percentDecode (43 :: rest) = 32 :: percentDecode rest := by
  rw [percentDecode]
  simp

theorem percentDecode_pct (d1 d2 : Nat) (rest : List Nat) :
    percentDecode (37 :: d1 :: d2 :: rest) =
      (16 * fromHex d1 + fromHex d2) :: percentDecode rest := by
  rw [percentDecode, percentEscape]
  simp

theorem percentDecode_encodeByte (b : Nat) (hb : b < 256) (rest : List Nat) :
    percentDecode (encodeByte b ++ rest) = b :: percentDecode rest := by
  by_cases hu : unreservedByte b = true
  · have hb43 : b ≠ 43 := by
      intro h; subst h; simp [unreservedByte] at hu
    have hb37 : b ≠ 37 := by
      intro h; subst h; simp [unreservedByte] at hu
    simp only [encodeByte, if_pos hu, List.cons_append, List.nil_append]
    exact percentDecode_other b rest hb43 hb37
  · by_cases h32 : b = 32
    · subst h32
      simp only [encodeByte, hu, Bool.false_eq_true, if_false, if_pos rfl,
        List.cons_append, List.nil_append]
      exact percentDecode_plus rest
    · simp only [encodeByte, hu, Bool.false_eq_true, if_false, if_neg h32,
        List.cons_append, List.nil_append]
      rw [percentDecode_pct, fromHex_hexUpper _ (by omega), fromHex_hexUpper _ (by omega)]
      congr 1
      omega

theorem percentDecode_bytes (bs : List Nat) (hb : ∀ b ∈ bs, b < 256) (rest : List Nat) :
    percentDecode ((bs.map encodeByte).flatten ++ rest) = bs ++ percentDecode rest := by
  induction bs with
  | nil => simp
  | cons b bs ih =>
    simp only [List.map_cons, List.flatten_cons, List.append_assoc, List.cons_append]
    rw [percentDecode_encodeByte b (hb b (List.mem_cons_self b bs)),
      ih (fun x hx => hb x (List.mem_cons_of_mem b hx))]

theorem utf8Char_bytes_lt (c : Nat) (hc : c < 1114112) :
    ∀ b ∈ utf8Char c, b < 256 := by
  intro b hb
  simp only [utf8Char] at hb
  split_ifs at hb <;> simp at hb <;> omega

theorem utf8Decode_nil : utf8Decode [] = [] := by rw [utf8Decode]

theorem utf8Decode_one (b : Nat) (rest : List Nat) (h : b < 128) :
    utf8Decode (b :: rest) = b :: utf8Decode rest := by
  rw [utf8Decode]
  simp [h]

theorem utf8Decode_two (b b1 : Nat) (rest : List Nat) (h1 : 128 ≤ b) (h2 : b < 224) :
    utf8Decode (b :: b1 :: rest) = ((b - 192) * 64 + (b1 - 128)) :: utf8Decode rest := by
  rw [utf8Decode]
  simp only [if_neg (by omega : ¬ b < 128), if_pos h2]
  rw [utf8Tail1]

theorem utf8Decode_three (b b1 b2 : Nat) (rest : List Nat) (h1 : 224 ≤ b) (h2 : b < 240) :
    utf8Decode (b :: b1 :: b2 :: rest) =
      ((b - 224) * 4096 + (b1 - 128) * 64 + (b2 - 128)) :: utf8Decode rest := by
  rw [utf8Decode]
  simp only [if_neg (by omega : ¬ b < 128), if_neg (by omega : ¬ b < 224), if_pos h2]
  rw [utf8Tail2]

theorem utf8Decode_four (b b1 b2 b3 : Nat) (rest : List Nat) (h1 : 240 ≤ b) :
    utf8Decode (b :: b1 :: b2 :: b3 :: rest) =
      ((b - 240) * 262144 + (b1 - 128) * 4096 + (b2 - 128) * 64 + (b3 - 128))
        :: utf8Decode rest := by
  rw [utf8Decode]
  simp only [if_neg (by omega : ¬ b < 128), if_neg (by omega : ¬ b < 224),
    if_neg (by omega : ¬ b < 240)]
  rw [utf8Tail3]

theorem utf8Decode_utf8Char (c : Nat) (hc : c < 1114112) (rest : List Nat) :
    utf8Decode (utf8Char c ++ rest) = c :: utf8Decode rest := by
  simp only [utf8Char]
  split_ifs with h1 h2 h3
  · simp only [List.cons_append, List.nil_append]
    exact utf8Decode_one c rest h1
  · simp only [List.cons_append, List.nil_append]
    rw [utf8Decode_two (192 + c / 64) (128 + c % 64) rest (by omega) (by omega),
      (by omega : (192 + c / 64 - 192) * 64 + (128 + c % 64 - 128) = c)]
  · simp only [List.cons_append, List.nil_append]
    rw [utf8Decode_three (224 + c / 4096) (128 + c / 64 % 64) (128 + c % 64) rest
        (by omega) (by omega),
      (by omega : (224 + c / 4096 - 224) * 4096 + (128 + c / 64 % 64 - 128) * 64 +
        (128 + c % 64 - 128) = c)]
  · simp only [List.cons_append, List.nil_append]
    rw [utf8Decode_four (240 + c / 262144) (128 + c / 4096 % 64) (128 + c / 64 % 64)
        (128 + c % 64) rest (by omega),
      (by omega : (240 + c / 262144 - 240) * 262144 + (128 + c / 4096 % 64 - 128) * 4096 +
        (128 + c / 64 % 64 - 128) * 64 + (128 + c % 64 - 128) = c)]

theorem utf8Str_bytes_lt (s : JsStr) (hs : validStr s = true) :
    ∀ b ∈ utf8Str s, b < 256 := by
  intro b hb
  simp only [utf8Str, List.mem_flatten, List.mem_map] at hb
  obtain ⟨l, ⟨c, hc, rfl⟩, hbl⟩ := hb
  have hv : validScalar c = true := by
    simp only [validStr, List.all_eq_true] at hs
    exact hs c hc
  have hlt : c < 1114112 := by
    simp only [validScalar, Bool.and_eq_true, decide_eq_true_eq] at hv
    exact hv.1
  exact utf8Char_bytes_lt c hlt b hbl

theorem utf8Decode_utf8Str (s : JsStr) (hs : validStr s = true) (rest : List Nat) :
    utf8Decode (utf8Str s ++ rest) = s ++ utf8Decode rest := by
  induction s with
  | nil => simp [utf8Str]
  | cons c s ih =>
    simp only [validStr, List.all_cons, Bool.and_eq_true] at hs
    have hlt : c < 1114112 := by
      have := hs.1
      simp only [validScalar, Bool.and_eq_true, decide_eq_true_eq] at this
      exact this.1
    simp only [utf8Str, List.map_cons, List.flatten_cons, List.append_assoc]
    rw [utf8Decode_utf8Char c hlt, List.cons_append]
    congr 1
    exact ih hs.2

theorem urldecode_urlencode (s : JsStr) (hs : validStr s = true) :
    urldecode (urlencode s) = s := by
  have h1 : percentDecode (((utf8Str s).map encodeByte).flatten ++ []) =
      utf8Str s ++ percentDecode [] :=
    percentDecode_bytes (utf8Str s) (utf8Str_bytes_lt s hs) []
  simp only [List.append_nil, percentDecode_nil] at h1
  have h2 := utf8Decode_utf8Str s hs []
  simp only [List.append_nil, utf8Decode_nil] at h2
  simp only [urldecode, urlencode, h1, h2]

theorem hexUpper_ne_sep (n : Nat) : hexUpper n ≠ 38 ∧ hexUpper n ≠ 61 := by
  simp only [hexUpper]
  split_ifs <;> omega

theorem mem_encodeByte_ne_sep (b x : Nat) (hx : x ∈ encodeByte b) :
    x ≠ 38 ∧ x ≠ 61 := by
  simp only [encodeByte] at hx
  split_ifs at hx with hu h32
  · simp only [List.mem_singleton] at hx
    subst hx
    simp only [unreservedByte, Bool.or_eq_true, Bool.and_eq_true,
      decide_eq_true_eq] at hu
    omega
  · simp only [List.mem_singleton] at hx
    omega
  · simp only [List.mem_cons, List.mem_singleton, List.not_mem_nil, or_false] at hx
    rcases hx with rfl | rfl | rfl
    · omega
    · exact hexUpper_ne_sep _
    · exact hexUpper_ne_sep _

theorem mem_urlencode_ne_sep (s : JsStr) (x : Nat) (hx : x ∈ urlencode s) :
    x ≠ 38 ∧ x ≠ 61 := by
  simp only [urlencode, List.mem_flatten, List.mem_map] at hx
  obtain ⟨l, ⟨b, hb, rfl⟩, hxl⟩ := hx
  exact mem_encodeByte_ne_sep b x hxl

theorem splitSep_no_sep (sep : Nat) (p : List Nat) (hp : ¬ sep ∈ p) :
    splitSep sep p = [p] := by
  induction p with
  | nil => rfl
  | cons b rest ih =>
    have hb : ¬ b = sep := by
      intro h
      exact hp (by simp [h])
    have ih' := ih fun h => hp (List.mem_cons_of_mem b h)
    rw [splitSep, ih']
    simp [hb]

theorem splitSep_append (sep : Nat) (p rest : List Nat) (hp : ¬ sep ∈ p) :
    splitSep sep (p ++ sep :: rest) = p :: splitSep sep rest := by
  induction p with
  | nil =>
    rw [List.nil_append, splitSep]
    simp
  | cons b p ih =>
    have hb : ¬ b = sep := by
      intro h
      exact hp (by simp [h])
    have ih' := ih fun h => hp (List.mem_cons_of_mem b h)
    rw [List.cons_append, splitSep, ih']
    simp [hb]

theorem splitEq_append (k v : List Nat) (hk : ¬ (61 : Nat) ∈ k) :
    splitEq (k ++ 61 :: v) = (k, v) := by
  induction k with
  | nil =>
    rw [List.nil_append, splitEq]
    simp
  | cons b k ih =>
    have hb : ¬ b = 61 := by
      intro h
      exact hk (by simp [h])
    have ih' := ih fun h => hk (List.mem_cons_of_mem b h)
    rw [List.cons_append, splitEq]
    simp [hb, ih']

theorem splitEq_encodePair (kv : JsStr × JsStr) :
    splitEq (encodePair kv) = (urlencode kv.1, urlencode kv.2) := by
  have h61 : ¬ (61 : Nat) ∈ urlencode kv.1 :=
    fun h => (mem_urlencode_ne_sep _ 61 h).2 rfl
  have he : encodePair kv = urlencode kv.1 ++ 61 :: urlencode kv.2 := by
    simp [encodePair]
  rw [he, splitEq_append _ _ h61]

theorem not_mem_38_encodePair (kv : JsStr × JsStr) :
    ¬ (38 : Nat) ∈ encodePair kv := by
  intro h
  simp only [encodePair, List.mem_append, List.mem_cons, List.not_mem_nil,
    or_false, List.mem_singleton] at h
  rcases h with (h | h) | h
  · exact (mem_urlencode_ne_sep _ _ h).1 rfl
  · omega
  · exact (mem_urlencode_ne_sep _ _ h).1 rfl

theorem decodeQuery_unfold (q : JsStr) :
    decodeQuery q = (splitSep 38 q).map
      (fun part => (urldecode (splitEq part).1, urldecode (splitEq part).2)) := rfl

theorem decodeQuery_encodePair (kv : JsStr × JsStr)
    (hk : validStr kv.1 = true) (hv : validStr kv.2 = true) :
    decodeQuery (encodePair kv) = [kv] := by
  rw [decodeQuery_unfold, splitSep_no_sep 38 _ (not_mem_38_encodePair kv)]
  simp only [List.map_cons, List.map_nil, splitEq_encodePair,
    urldecode_urlencode _ hk, urldecode_urlencode _ hv]

theorem decodeQuery_encodeQuery (ps : List (JsStr × JsStr)) (hne : ps ≠ [])
    (hv : ∀ kv ∈ ps, validStr kv.1 = true ∧ validStr kv.2 = true) :
    decodeQuery (encodeQuery ps) = ps := by
  induction ps with
  | nil => exact absurd rfl hne
  | cons kv rest ih =>
    rcases rest with _ | ⟨kv2, rest2⟩
    · have h := hv kv (List.mem_cons_self kv [])
      have he : encodeQuery [kv] = encodePair kv := by
        simp only [encodeQuery]
      rw [he, decodeQuery_encodePair kv h.1 h.2]
    · have hkv := hv kv (List.mem_cons_self kv (kv2 :: rest2))
      have htail : decodeQuery (encodeQuery (kv2 :: rest2)) = kv2 :: rest2 :=
        ih (by simp) fun x hx => hv x (List.mem_cons_of_mem kv hx)
      have he : encodeQuery (kv :: kv2 :: rest2) =
          encodePair kv ++ 38 :: encodeQuery (kv2 :: rest2) := by
        simp only [encodeQuery]
        simp
      rw [decodeQuery_unfold, he,
        splitSep_append 38 _ _ (not_mem_38_encodePair kv)]
      simp only [List.map_cons, splitEq_encodePair,
        urldecode_urlencode _ hkv.1, urldecode_urlencode _ hkv.2]
      rw [← decodeQuery_unfold, htail]

/-! Lemmas about the header-object operations. -/

theorem objGet_objSet_self (k v : JsStr) (l : List (JsStr × JsStr)) :
    objGet k (objSet k v l) = some v := by
  induction l with
  | nil => simp [objSet, objGet]
  | cons kv rest ih =>
    rcases kv with ⟨k', v'⟩
    by_cases h : k' = k
    · subst h
      simp [objSet, objGet]
    · simp [objSet, objGet, h, ih]

theorem objGet_objSet_ne (k k' v : JsStr) (l : List (JsStr × JsStr)) (h : k' ≠ k) :
    objGet k (objSet k' v l) = objGet k l := by
  induction l with
  | nil => simp [objSet, objGet, h]
  | cons kv rest ih =>
    rcases kv with ⟨k'', v''⟩
    by_cases h2 : k'' = k'
    · subst h2
      simp [objSet, objGet, h]
    · by_cases h3 : k'' = k
      · subst h3
        simp [objSet, objGet, h2]
      · simp [objSet, objGet, h2, h3, ih]

theorem objGet_objDelete_ne (k k' : JsStr) (l : List (JsStr × JsStr)) (h : k ≠ k') :
    objGet k (objDelete k' l) = objGet k l := by
  induction l with
  | nil => simp [objDelete]
  | cons kv rest ih =>
    rcases kv with ⟨k2, v2⟩
    by_cases h2 : k2 = k'
    · subst h2
      have h3 : ¬ k2 = k := by
        intro hh
        subst hh
        exact h rfl
      simp [objDelete, objGet, h3, ih]
    · by_cases h3 : k2 = k
      · subst h3
        simp [objDelete, objGet, h2]
      · simp [objDelete, objGet, h2, h3, ih]

theorem objGet_objDelete_self (k : JsStr) (l : List (JsStr × JsStr)) :
    objGet k (objDelete k l) = none := by
  induction l with
  | nil => simp [objDelete, objGet]
  | cons kv rest ih =>
    rcases kv with ⟨k', v'⟩
    by_cases h : k' = k
    · subst h
      simp [objDelete, ih]
    · simp [objDelete, objGet, h, ih]

theorem objGet_foldl_objSet (k : JsStr) (l : List (JsStr × JsStr))
    (init : List (JsStr × JsStr)) :
    objGet k (l.foldl (fun acc kv => objSet kv.1 kv.2 acc) init) =
      match lastGet k l with
      | some v => some v
      | none => objGet k init := by
  induction l generalizing init with
  | nil => simp [lastGet]
  | cons kv rest ih =>
    rcases kv with ⟨k', v'⟩
    simp only [List.foldl_cons]
    rw [ih]
    simp only [lastGet]
    cases hlast : lastGet k rest with
    | some w => simp
    | none =>
      by_cases h : k' = k
      · subst h
        simp [objGet_objSet_self]
      · simp [h, objGet_objSet_ne k k' v' init h]

theorem objGet_mergeHeaders (k : JsStr) (headers : List (JsStr × JsStr)) :
    objGet k (mergeHeaders headers) =
      match lastGet k headers with
      | some v => some v
      | none => objGet k [(S "Content-Type", S "application/json")] := by
  simp only [mergeHeaders]
  exact objGet_foldl_objSet k headers _

theorem lastGet_eq_none (k : JsStr) (l : List (JsStr × JsStr))
    (h : ¬ k ∈ l.map Prod.fst) : lastGet k l = none := by
  induction l with
  | nil => simp [lastGet]
  | cons kv rest ih =>
    rcases kv with ⟨k', v'⟩
    have h1 : ¬ k' = k := by
      intro hh
      exact h (by simp [hh])
    have h2 := ih (by
      intro hh
      exact h (by simp [hh]))
    simp [lastGet, h1, h2]

/-! Projections of `buildRequest`, by case analysis on the body. -/

theorem buildRequest_url (apiBase : JsStr) (token : Option JsStr) (path : JsStr)
    (method : JsStr) (body : Option JsValue) (params : Option (List (JsStr × JsStr)))
    (headers : List (JsStr × JsStr)) :
    (buildRequest apiBase token path method body params headers).url =
      apiBase ++ path ++
        (match params with
         | none => []
         | some ps => 63 :: encodeQuery ps) := by
  rcases body with _ | b
  · rfl
  · rcases b with _ | _ | _ | _ | _ | _ | parts <;>
      simp only [buildRequest] <;> split <;> rfl

theorem buildRequest_headers (apiBase : JsStr) (token : Option JsStr) (path : JsStr)
    (method : JsStr) (body : Option JsValue) (params : Option (List (JsStr × JsStr)))
    (headers : List (JsStr × JsStr)) :
    (buildRequest apiBase token path method body params headers).headers =
      (match body with
       | some (JsValue.formData _) =>
         objDelete (S "Content-Type")
           (if tokenTruthy token then
              objSet (S "Authorization") (S "Bearer " ++ token.getD []) (mergeHeaders headers)
            else mergeHeaders headers)
       | _ =>
         if tokenTruthy token then
           objSet (S "Authorization") (S "Bearer " ++ token.getD []) (mergeHeaders headers)
         else mergeHeaders headers) := by
  rcases body with _ | b
  · rfl
  · rcases b with _ | _ | _ | _ | _ | _ | parts <;>
      simp only [buildRequest] <;> split <;> first | rfl | simp_all [truthy]

theorem buildRequest_sentBody (apiBase : JsStr) (token : Option JsStr) (path : JsStr)
    (method : JsStr) (body : Option JsValue) (params : Option (List (JsStr × JsStr)))
    (headers : List (JsStr × JsStr)) :
    (buildRequest apiBase token path method body params headers).sentBody =
      (match body with
       | none => none
       | some (JsValue.formData parts) => some (SentBody.formData parts)
       | some b => if truthy b then some (SentBody.jsonText (stringify b)) else none) := by
  rcases body with _ | b
  · rfl
  · rcases b with _ | _ | _ | _ | _ | _ | parts <;>
      simp only [buildRequest] <;> split <;> first | rfl | simp_all [truthy]

/-! Helper lemmas used by several claim theorems. -/

theorem request_fst (envUrl : Option JsStr) (store : Store) (path method : JsStr)
    (body : Option JsValue) (params : Option (List (JsStr × JsStr)))
    (headers : List (JsStr × JsStr)) (outcome : FetchOutcome) :
    (request envUrl store path method body params headers outcome).1 =
      buildRequest (API_BASE envUrl) (getAuthToken store) path method body params headers := rfl

theorem tokenTruthy_some (t : JsStr) (ht : t ≠ []) : tokenTruthy (some t) = true := by
  cases t with
  | nil => exact absurd rfl ht
  | cons c rest => rfl

theorem objGet_auth_buildRequest (apiBase : JsStr) (token : Option JsStr)
    (path method : JsStr) (body : Option JsValue)
    (params : Option (List (JsStr × JsStr))) (headers : List (JsStr × JsStr))
    (t : JsStr) (h : token = some t) (ht : t ≠ []) :
    objGet (S "Authorization")
      (buildRequest apiBase token path method body params headers).headers =
      some (S "Bearer " ++ t) := by
  subst h
  have htt : tokenTruthy (some t) = true := tokenTruthy_some t ht
  have hAC : S "Authorization" ≠ S "Content-Type" := by decide
  rw [buildRequest_headers]
  rcases body with _ | b
  · simp only [htt, if_true]
    exact objGet_objSet_self _ _ _
  · rcases b with _ | _ | _ | _ | _ | _ | parts <;>
      simp only [htt, if_true] <;>
      first
        | exact objGet_objSet_self _ _ _
        | rw [objGet_objDelete_ne _ _ _ hAC]
          exact objGet_objSet_self _ _ _

/-! The claims. -/

/-- C1 (counterexample): the claim says the error message is the parsed
payload's `message` field whenever that field is present; but for a 404
response whose payload is `\x7b"message": ""\x7d` the code falls back to the
status text (`responseData?.message || response.statusText` treats the
present-but-falsy field as absent), so the error carries "Not Found"
rather than the present (empty) `message` field. -/
theorem c1_message_empty_counterexample :
    (request none ⟨none⟩ (S "/p") (S "GET") none none []
        (.response 404 (S "Not Found") (some (.jobj [(S "message", .jstr [])])))).2 =
      .error ⟨S "Not Found", 404, some (.jobj [(S "message", .jstr [])])⟩ ∧
    S "Not Found" ≠ ([] : JsStr) :=
  ⟨rfl, by decide⟩

/-- C1 (amended): for every non-ok HTTP response, `request` fails with an
API error whose status is the HTTP status code and whose data is the full
parsed payload (absent when the body was empty or not JSON); the message
is the payload's `message` field (string-coerced) when that field is
present with a truthy value, and otherwise the response's status text. -/
theorem c1_api_error_shape (envUrl : Option JsStr) (store : Store)
    (path method : JsStr) (body : Option JsValue)
    (params : Option (List (JsStr × JsStr))) (headers : List (JsStr × JsStr))
    (status : Nat) (statusText : JsStr) (jsonBody : Option JsValue)
    (hstatus : respOk status = false) :
    ∃ e, (request envUrl store path method body params headers
            (.response status statusText jsonBody)).2 = .error e ∧
      e.status = status ∧ e.data = jsonBody ∧
      (∀ m, optMessage jsonBody = some m → truthy m = true →
        e.message = jsToString m) ∧
      ((∀ m, optMessage jsonBody = some m → truthy m = false) →
        e.message = statusText) := by
  refine ⟨⟨(match optMessage jsonBody with
            | some m => if truthy m then jsToString m else statusText
            | none => statusText), status, jsonBody⟩, ?_, rfl, rfl, ?_, ?_⟩
  · simp only [request, tryBody, hstatus, Bool.false_eq_true, if_false]
    rfl
  · intro m hm htr
    simp only [hm, htr, if_true]
  · intro hall
    cases hm : optMessage jsonBody with
    | none => simp only
    | some m =>
      have := hall m hm
      simp only [this, Bool.false_eq_true, if_false]

/-- C1 (witness): the amended claim at the spec's own example — a 404
response with payload `\x7b"message": "not found"\x7d`. -/
theorem c1_api_error_shape_witness :
    ∃ e, (request none ⟨none⟩ (S "/p") (S "GET") none none []
            (.response 404 (S "Not Found")
              (some (.jobj [(S "message", .jstr (S "not found"))])))).2 = .error e ∧
      e.status = 404 ∧ e.data = some (.jobj [(S "message", .jstr (S "not found"))]) ∧
      (∀ m, optMessage (some (.jobj [(S "message", .jstr (S "not found"))])) = some m →
        truthy m = true → e.message = jsToString m) ∧
      ((∀ m, optMessage (some (.jobj [(S "message", .jstr (S "not found"))])) = some m →
        truthy m = false) → e.message = S "Not Found") :=
  c1_api_error_shape none ⟨none⟩ (S "/p") (S "GET") none none [] 404
    (S "Not Found") (some (.jobj [(S "message", .jstr (S "not found"))])) (by decide)

/-- C2: every value raised inside `request`'s try block that already is the
structured API error is re-raised unchanged, and every other raised failure
is wrapped into an API error with status exactly 0, no payload, and a
non-empty message taken from the underlying failure's message (or the
generic fallback when that message is empty). -/
theorem c2_error_wrapping (envUrl : Option JsStr) (store : Store)
    (path method : JsStr) (body : Option JsValue)
    (params : Option (List (JsStr × JsStr))) (headers : List (JsStr × JsStr))
    (outcome : FetchOutcome) (e : JsError)
    (h : tryBody outcome = .error e) :
    (request envUrl store path method body params headers outcome).2 =
      .error (catchHandler e) ∧
    (∀ a, e = .apiError a → catchHandler e = a) ∧
    (∀ m, e = .otherError m →
      (catchHandler e).status = 0 ∧ (catchHandler e).data = none ∧
      (catchHandler e).message ≠ [] ∧
      ((catchHandler e).message = m ∨
        (catchHandler e).message = S "Network request failed")) := by
  refine ⟨?_, ?_, ?_⟩
  · simp only [request, h]
  · intro a ha
    subst ha
    rfl
  · intro m hm
    subst hm
    by_cases hemp : m.isEmpty = true
    · refine ⟨rfl, rfl, ?_, Or.inr ?_⟩
      · show ¬ (catchHandler (.otherError m)).message = []
        simp only [catchHandler, hemp, if_true]
        decide
      · simp only [catchHandler, hemp, if_true]
    · have hef : m.isEmpty = false := by
        cases h2 : m.isEmpty
        · rfl
        · exact absurd h2 hemp
      refine ⟨rfl, rfl, ?_, Or.inl ?_⟩
      · show ¬ (catchHandler (.otherError m)).message = []
        simp only [catchHandler, hef, Bool.false_eq_true, if_false]
        intro hnil
        subst hnil
        simp at hef
      · simp only [catchHandler, hef, Bool.false_eq_true, if_false]

/-- C2 (witness): a rejected fetch (network failure "connection reset")
is wrapped as status 0, no payload, non-empty message. -/
theorem c2_error_wrapping_witness :
    (request none ⟨none⟩ (S "/p") (S "GET") none none []
        (.networkError (S "connection reset"))).2 =
      .error (catchHandler (.otherError (S "connection reset"))) :=
  (c2_error_wrapping none ⟨none⟩ (S "/p") (S "GET") none none []
    (.networkError (S "connection reset")) (.otherError (S "connection reset")) rfl).1

/-- C3 (counterexample): the claim says the composed URL has no trailing
`?` whenever `params` carries no key-value pairs; but a supplied-but-empty
`params` object is truthy in the source (`if (params)`), so the URL ends
in a bare `?`. -/
theorem c3_empty_params_counterexample :
    (request none ⟨none⟩ (S "/p") (S "GET") none (some []) []
        (.response 200 (S "OK") none)).1.url ≠ API_BASE none ++ S "/p" ∧
    (request none ⟨none⟩ (S "/p") (S "GET") none (some []) []
        (.response 200 (S "OK") none)).1.url = API_BASE none ++ S "/p" ++ [63] := by
  constructor
  · decide
  · decide

/-- C3 (amended): the composed URL equals `base + path` exactly when
`params` is absent; whenever a `params` object is supplied — even one with
no key-value pairs — a `?` plus the URLSearchParams serialization of its
pairs is appended. -/
theorem c3_url_composition (envUrl : Option JsStr) (store : Store)
    (path method : JsStr) (body : Option JsValue)
    (params : Option (List (JsStr × JsStr))) (headers : List (JsStr × JsStr))
    (outcome : FetchOutcome) :
    (params = none →
      (request envUrl store path method body params headers outcome).1.url =
        API_BASE envUrl ++ path) ∧
    (∀ ps, params = some ps →
      (request envUrl store path method body params headers outcome).1.url =
        API_BASE envUrl ++ path ++ 63 :: encodeQuery ps) := by
  constructor
  · intro h
    subst h
    rw [request_fst, buildRequest_url]
    simp
  · intro ps h
    subst h
    rw [request_fst, buildRequest_url]

/-- C3 (witness): the amended claim at a concrete absent-`params` call. -/
theorem c3_url_composition_witness :
    (request none ⟨none⟩ (S "/p") (S "GET") none none []
        (.response 200 (S "OK") none)).1.url = API_BASE none ++ S "/p" :=
  (c3_url_composition none ⟨none⟩ (S "/p") (S "GET") none none []
    (.response 200 (S "OK") none)).1 rfl

/-- C7: every HTTP response with a success (ok) status and an empty or
non-JSON body — so `response.json()` rejected and the parsed payload is
absent — makes `request` return success with an absent payload. -/
theorem c7_empty_body_success (envUrl : Option JsStr) (store : Store)
    (path method : JsStr) (body : Option JsValue)
    (params : Option (List (JsStr × JsStr))) (headers : List (JsStr × JsStr))
    (status : Nat) (statusText : JsStr) (hstatus : respOk status = true) :
    (request envUrl store path method body params headers
        (.response status statusText none)).2 = .ok none := by
  simp only [request, tryBody, hstatus, if_true]

/-- C7 (witness): the spec's example — status 204 with an empty body. -/
theorem c7_empty_body_success_witness :
    (request none ⟨none⟩ (S "/p") (S "GET") none none []
        (.response 204 (S "No Content") none)).2 = .ok none :=
  c7_empty_body_success none ⟨none⟩ (S "/p") (S "GET") none none [] 204
    (S "No Content") (by decide)

/-- C4: for every invocation with a non-empty (well-formed) `params` list,
the composed URL is `base + path + ?` followed by a query string that
round-trips — standard query-string decoding reproduces exactly the
original key-value pairs, in insertion order. -/
theorem c4_query_roundtrip (envUrl : Option JsStr) (store : Store)
    (path method : JsStr) (body : Option JsValue)
    (headers : List (JsStr × JsStr)) (outcome : FetchOutcome)
    (ps : List (JsStr × JsStr)) (hne : ps ≠ [])
    (hv : ∀ kv ∈ ps, validStr kv.1 = true ∧ validStr kv.2 = true) :
    ∃ q, (request envUrl store path method body (some ps) headers outcome).1.url =
        API_BASE envUrl ++ path ++ 63 :: q ∧
      decodeQuery q = ps := by
  refine ⟨encodeQuery ps, ?_, decodeQuery_encodeQuery ps hne hv⟩
  rw [request_fst, buildRequest_url]

/-- C4 (witness): round-trip at params needing escapes: space, `&`, `=`
and a non-ASCII code point. -/
theorem c4_query_roundtrip_witness :
    ∃ q, (request none ⟨none⟩ (S "/p") (S "GET") none
          (some [(S "a b", S "c&d"), (S "é", S "x=y")]) []
          (.response 200 (S "OK") none)).1.url =
        API_BASE none ++ S "/p" ++ 63 :: q ∧
      decodeQuery q = [(S "a b", S "c&d"), (S "é", S "x=y")] :=
  c4_query_roundtrip none ⟨none⟩ (S "/p") (S "GET") none []
    (.response 200 (S "OK") none) [(S "a b", S "c&d"), (S "é", S "x=y")]
    (by decide) (by decide)

/-- C5 (counterexample): the claim says that with no stored token no
Authorization header is present on the final request; but a caller-supplied
`Authorization` header passes through the header merge untouched, so the
final request does carry one. -/
theorem c5_no_token_counterexample :
    objGet (S "Authorization")
      (request none ⟨none⟩ (S "/p") (S "GET") none none
          [(S "Authorization", S "Basic abc")]
          (.response 200 (S "OK") none)).1.headers = some (S "Basic abc") ∧
    some (S "Basic abc") ≠ (none : Option JsStr) := by
  constructor
  · decide
  · decide

/-- C5 (amended): if a non-empty token is stored, every outgoing request
carries `Authorization: Bearer <token>`; if the stored token is absent
(or empty, which the source treats as absent), the request function adds
no Authorization header — the final request carries exactly whatever
Authorization value the caller's headers supplied, if any. -/
theorem c5_auth_header (envUrl : Option JsStr) (store : Store)
    (path method : JsStr) (body : Option JsValue)
    (params : Option (List (JsStr × JsStr))) (headers : List (JsStr × JsStr))
    (outcome : FetchOutcome) :
    (∀ t, getAuthToken store = some t → t ≠ [] →
      objGet (S "Authorization")
        (request envUrl store path method body params headers outcome).1.headers =
        some (S "Bearer " ++ t)) ∧
    (tokenTruthy (getAuthToken store) = false →
      objGet (S "Authorization")
        (request envUrl store path method body params headers outcome).1.headers =
        lastGet (S "Authorization") headers) := by
  have hAC : S "Authorization" ≠ S "Content-Type" := by decide
  constructor
  · intro t ht hne
    rw [request_fst]
    exact objGet_auth_buildRequest _ _ _ _ _ _ _ t ht hne
  · intro hfalse
    rw [request_fst, buildRequest_headers]
    have hbase : objGet (S "Authorization") (mergeHeaders headers) =
        lastGet (S "Authorization") headers := by
      rw [objGet_mergeHeaders]
      cases lastGet (S "Authorization") headers with
      | none => decide
      | some v => rfl
    rcases body with _ | b
    · simp only [hfalse, Bool.false_eq_true, if_false]
      exact hbase
    · rcases b with _ | _ | _ | _ | _ | _ | parts <;>
        simp only [hfalse, Bool.false_eq_true, if_false] <;>
        first
          | exact hbase
          | rw [objGet_objDelete_ne _ _ _ hAC]
            exact hbase

/-- C5 (witness): the amended claim with a stored token "tok". -/
theorem c5_auth_header_witness :
    objGet (S "Authorization")
      (request none ⟨some (S "tok")⟩ (S "/p") (S "GET") none none []
          (.response 200 (S "OK") none)).1.headers =
      some (S "Bearer " ++ S "tok") :=
  (c5_auth_header none ⟨some (S "tok")⟩ (S "/p") (S "GET") none none []
    (.response 200 (S "OK") none)).1 (S "tok") rfl (by decide)

/-- C6 (counterexample): the claim says a present non-multipart body "is
sent as its JSON serialization"; but the falsy body `0` is present yet the
source's `if (body)` skips it entirely — no body is attached at all. -/
theorem c6_falsy_body_counterexample :
    (request none ⟨none⟩ (S "/p") (S "POST") (some (.jnum 0)) none []
        (.response 200 (S "OK") none)).1.sentBody = none ∧
    (none : Option SentBody) ≠ some (.jsonText (stringify (.jnum 0))) := by
  constructor
  · rfl
  · intro h
    exact Option.noConfusion h

/-- C6 (amended): a multipart (`FormData`) body is sent unmodified and the
`Content-Type` header is removed from the final request; any other present
and truthy body is sent as its JSON serialization, and the final request
carries `Content-Type: application/json` unless the caller's headers
supplied an overriding value, which is kept. -/
theorem c6_body_content_type (envUrl : Option JsStr) (store : Store)
    (path method : JsStr) (body : Option JsValue)
    (params : Option (List (JsStr × JsStr))) (headers : List (JsStr × JsStr))
    (outcome : FetchOutcome) :
    (∀ parts, body = some (.formData parts) →
      objGet (S "Content-Type")
        (request envUrl store path method body params headers outcome).1.headers = none ∧
      (request envUrl store path method body params headers outcome).1.sentBody =
        some (.formData parts)) ∧
    (∀ b, body = some b → truthy b = true → isFormData b = false →
      (request envUrl store path method body params headers outcome).1.sentBody =
        some (.jsonText (stringify b)) ∧
      (lastGet (S "Content-Type") headers = none →
        objGet (S "Content-Type")
          (request envUrl store path method body params headers outcome).1.headers =
          some (S "application/json")) ∧
      (∀ v, lastGet (S "Content-Type") headers = some v →
        objGet (S "Content-Type")
          (request envUrl store path method body params headers outcome).1.headers =
          some v)) := by
  have hAC : S "Authorization" ≠ S "Content-Type" := by decide
  have hCA : S "Content-Type" ≠ S "Authorization" := by decide
  have hCT : objGet (S "Content-Type")
      (if tokenTruthy (getAuthToken store) then
         objSet (S "Authorization") (S "Bearer " ++ (getAuthToken store).getD [])
           (mergeHeaders headers)
       else mergeHeaders headers) = objGet (S "Content-Type") (mergeHeaders headers) := by
    by_cases htok : tokenTruthy (getAuthToken store) = true
    · simp only [htok, if_true]
      exact objGet_objSet_ne _ _ _ _ hAC
    · simp only [htok, Bool.false_eq_true, if_false]
  constructor
  · intro parts hb
    subst hb
    constructor
    · rw [request_fst, buildRequest_headers]
      exact objGet_objDelete_self _ _
    · rw [request_fst, buildRequest_sentBody]
  · intro b hb htr hfd
    subst hb
    have hsent : (request envUrl store path method (some b) params headers outcome).1.sentBody =
        some (.jsonText (stringify b)) := by
      rw [request_fst, buildRequest_sentBody]
      rcases b with _ | _ | _ | _ | _ | _ | parts <;>
        simp only [htr, if_true] <;>
        first
          | rfl
          | simp [isFormData] at hfd
    have hhead : objGet (S "Content-Type")
        (request envUrl store path method (some b) params headers outcome).1.headers =
        objGet (S "Content-Type") (mergeHeaders headers) := by
      rw [request_fst, buildRequest_headers]
      rcases b with _ | _ | _ | _ | _ | _ | parts <;>
        first
          | exact hCT
          | simp [isFormData] at hfd
    refine ⟨hsent, ?_, ?_⟩
    · intro hnone
      rw [hhead, objGet_mergeHeaders, hnone]
      decide
    · intro v hv
      rw [hhead, objGet_mergeHeaders, hv]

/-- C6 (witness): the amended claim at a concrete multipart upload. -/
theorem c6_body_content_type_witness :
    objGet (S "Content-Type")
      (request none ⟨none⟩ (S "/user/avatar") (S "POST")
          (some (.formData [(S "avatar", S "bin")])) none []
          (.response 200 (S "OK") none)).1.headers = none ∧
    (request none ⟨none⟩ (S "/user/avatar") (S "POST")
        (some (.formData [(S "avatar", S "bin")])) none []
        (.response 200 (S "OK") none)).1.sentBody =
      some (.formData [(S "avatar", S "bin")]) :=
  (c6_body_content_type none ⟨none⟩ (S "/user/avatar") (S "POST")
    (some (.formData [(S "avatar", S "bin")])) none []
    (.response 200 (S "OK") none)).1 [(S "avatar", S "bin")] rfl

/-- C8: `auth.logout` clears the persisted token before issuing the logout
network call: after any logout call the store holds no token — whatever
the network outcome, including a failure — and the network call itself is
made from the already-cleared store. -/
theorem c8_logout_clears_token (envUrl : Option JsStr) (s : Store)
    (outcome : FetchOutcome) :
    ((logout envUrl s outcome).1).token = none ∧
    (logout envUrl s outcome).2 =
      (request envUrl ⟨none⟩ (S "/auth/logout") (S "GET") none none [] outcome).2 :=
  ⟨rfl, rfl⟩

/-- C9: a supplied but falsy body (0, empty string, false, null) is
neither serialized nor attached — the whole request outcome is identical
to one with no body supplied at all. -/
theorem c9_falsy_body_dropped (envUrl : Option JsStr) (store : Store)
    (path method : JsStr) (params : Option (List (JsStr × JsStr)))
    (headers : List (JsStr × JsStr)) (outcome : FetchOutcome)
    (b : JsValue) (hb : truthy b = false) :
    request envUrl store path method (some b) params headers outcome =
      request envUrl store path method none params headers outcome := by
  have hreq : buildRequest (API_BASE envUrl) (getAuthToken store) path method
      (some b) params headers =
      buildRequest (API_BASE envUrl) (getAuthToken store) path method
        none params headers := by
    rcases b with _ | _ | _ | _ | _ | _ | parts <;> simp_all [buildRequest, truthy]
  simp only [request, hreq]

/-- C9 (witness): the falsy body `0`. -/
theorem c9_falsy_body_dropped_witness :
    request none ⟨none⟩ (S "/p") (S "POST") (some (.jnum 0)) none []
        (.response 200 (S "OK") none) =
      request none ⟨none⟩ (S "/p") (S "POST") none none []
        (.response 200 (S "OK") none) :=
  c9_falsy_body_dropped none ⟨none⟩ (S "/p") (S "POST") none []
    (.response 200 (S "OK") none) (.jnum 0) (by decide)

/-- C10 (counterexample): the claim says that whenever a token is stored
the Authorization header is `Bearer <stored token>` even against a caller
override; but a stored empty-string token is falsy (`if (token)`), so the
caller's Authorization value survives instead of `Bearer `. -/
theorem c10_empty_token_counterexample :
    objGet (S "Authorization")
      (request none ⟨some []⟩ (S "/p") (S "GET") none none
          [(S "Authorization", S "Basic abc")]
          (.response 200 (S "OK") none)).1.headers = some (S "Basic abc") ∧
    some (S "Basic abc") ≠ some (S "Bearer " ++ ([] : JsStr)) := by
  constructor
  · decide
  · decide

/-- C10 (amended): whenever a non-empty token is stored, the Authorization
header of the final request is `Bearer <stored token>` for every caller
header list — including ones supplying a different Authorization value —
because the stored token is written after the caller's headers are merged. -/
theorem c10_token_overrides_caller (envUrl : Option JsStr) (store : Store)
    (path method : JsStr) (body : Option JsValue)
    (params : Option (List (JsStr × JsStr))) (headers : List (JsStr × JsStr))
    (outcome : FetchOutcome) (t : JsStr)
    (ht : getAuthToken store = some t) (hne : t ≠ []) :
    objGet (S "Authorization")
      (request envUrl store path method body params headers outcome).1.headers =
      some (S "Bearer " ++ t) := by
  rw [request_fst]
  exact objGet_auth_buildRequest _ _ _ _ _ _ _ t ht hne

/-- C10 (witness): stored token "tok" beats a caller-supplied
`Authorization: Basic abc`. -/
theorem c10_token_overrides_caller_witness :
    objGet (S "Authorization")
      (request none ⟨some (S "tok")⟩ (S "/p") (S "GET") none none
          [(S "Authorization", S "Basic abc")]
          (.response 200 (S "OK") none)).1.headers =
      some (S "Bearer " ++ S "tok") :=
  c10_token_overrides_caller none ⟨some (S "tok")⟩ (S "/p") (S "GET") none none
    [(S "Authorization", S "Basic abc")]
    (.response 200 (S "OK") none) (S "tok") rfl (by decide)

end DineFlow
